import Mathlib

/-!
Verification of the marshalling layer in `src/odbc_result.h`: a bidirectional
bridge between R data frames and an ODBC connection (nanodbc).  Outbound,
`insert_dataframe` chunks a data frame into batches of 1024 rows and binds
per-column buffers with per-type null handling; inbound, `result_to_dataframe`
materializes a forward-only result cursor into a growable data frame.
The temporal codec (`as_timestamp` / `as_double`) converts between numeric
epoch offsets and calendar timestamps.

The C library calendar functions (`localtime`, `Rcpp::mktime00`) are external
collaborators of the repository; they are modelled here by an explicit
proleptic-Gregorian days/civil conversion (the ambient local time zone is
modelled as a fixed zero-offset zone, matching the codec's documented
local-time ambient-state contract).
-/

/-! ## Definitions: the embedded model -/

namespace Greg

/-- Century index (0..3) within a 400-year era, from the day-of-era. -/
def centC (doe : Nat) : Nat := min (doe / 36524) 3

/-- Day offset within the century. -/
def dc (doe : Nat) : Nat := doe - 36524 * centC doe

/-- Four-year-cycle index (0..24) within the century. -/
def quadQ (doe : Nat) : Nat := dc doe / 1461

/-- Day offset within the four-year cycle. -/
def dq (doe : Nat) : Nat := dc doe - 1461 * quadQ doe

/-- Year index (0..3) within the four-year cycle. -/
def yearQ (doe : Nat) : Nat := min (dq doe / 365) 3

/-- Day of the (March-based) year, 0..365. -/
def doy (doe : Nat) : Nat := dq doe - 365 * yearQ doe

/-- Year of the era, 0..399. -/
def yoe (doe : Nat) : Nat := 100 * centC doe + 4 * quadQ doe + yearQ doe

/-- March-based month index, 0..11 (0 = March). -/
def mp (doe : Nat) : Nat := (5 * doy doe + 2) / 153

/-- Day of the month, 1..31. -/
def dayOfMonth (doe : Nat) : Nat := doy doe - (153 * mp doe + 2) / 5 + 1

/-- Civil month, 1..12. -/
def monthM (doe : Nat) : Nat := if mp doe < 10 then mp doe + 3 else mp doe - 9

end Greg

/-- Days since 1970-01-01 to proleptic-Gregorian (year, month, day). -/
def civilFromDays (z : Int) : Int × Nat × Nat :=
  let era : Int := (z + 719468) / 146097
  let doe : Nat := ((z + 719468) % 146097).toNat
  (era * 400 + Greg.yoe doe + (if Greg.monthM doe ≤ 2 then 1 else 0),
   Greg.monthM doe, Greg.dayOfMonth doe)

/-- Proleptic-Gregorian (year, month, day) to days since 1970-01-01. -/
def daysFromCivil (y : Int) (m d : Nat) : Int :=
  let y2 : Int := y - (if m ≤ 2 then 1 else 0)
  let era : Int := y2 / 400
  let yy : Nat := (y2 % 400).toNat
  let doy2 : Nat := (153 * (if 2 < m then m - 3 else m + 9) + 2) / 5 + d - 1
  let doe2 : Nat := 365 * yy + yy / 4 - yy / 100 + doy2
  era * 146097 + (doe2 : Int) - 719468

/-- Broken-down time, mirroring the fields of C `struct tm` that the codec
reads and writes (`tm_year` is years since 1900, `tm_mon` is 0-based). -/
structure Tm where
  tm_sec : Nat
  tm_min : Nat
  tm_hour : Nat
  tm_mday : Nat
  tm_mon : Nat
  tm_year : Int
deriving Repr, DecidableEq

/-- Modelled from the spec: `localtime` (C library), an external collaborator
of the repository.  It decomposes an epoch second count by local calendar
rules into a broken-down time; the ambient local time zone is modelled as a
fixed zero-offset zone. -/
def localtime (t : Int) : Tm :=
  let sod : Nat := (t % 86400).toNat
  let c := civilFromDays (t / 86400)
  { tm_sec := sod % 60, tm_min := sod / 60 % 60, tm_hour := sod / 3600,
    tm_mday := c.2.2, tm_mon := c.2.1 - 1, tm_year := c.1 - 1900 }

/-- Modelled from the spec: `Rcpp::mktime00` (R internals), an external
collaborator reconstructing an epoch second count from the six integer
broken-down-time fields by the calendar conversion. -/
def mktime00 (t : Tm) : Int :=
  daysFromCivil (t.tm_year + 1900) (t.tm_mon + 1) t.tm_mday * 86400
    + t.tm_hour * 3600 + t.tm_min * 60 + t.tm_sec

/-- Truncation toward zero of a rational, modelling C `modf` together with
the `static_cast<time_t>` of the integral part. -/
def truncQ (q : ℚ) : Int := q.num.tdiv q.den

/-- The model of `nanodbc::timestamp`: calendar fields plus fractional
seconds.  A default-constructed value is all zero. -/
structure Timestamp where
  year : Int := 0
  month : Nat := 0
  day : Nat := 0
  hour : Nat := 0
  min : Nat := 0
  sec : Nat := 0
  fract : ℚ := 0
deriving Repr, DecidableEq

instance : Inhabited Timestamp := ⟨{}⟩

/-- Model of `odbc_result::as_timestamp`: split a double into integer and fractional
parts (`modf`), decompose the integer part with `localtime`, and store the
fractional remainder in the fractional-second field. -/
def as_timestamp (value : ℚ) : Timestamp :=
  let frac : ℚ := value - truncQ value
  let tm := localtime (truncQ value)
  { fract := frac, sec := tm.tm_sec, min := tm.tm_min, hour := tm.tm_hour,
    day := tm.tm_mday, month := tm.tm_mon + 1, year := tm.tm_year + 1900 }

/-- Model of `odbc_result::as_double`: rebuild the broken-down time from the six
integer fields, convert with `mktime00`, and add the fractional seconds. -/
def as_double (ts : Timestamp) : ℚ :=
  let t : Tm := { tm_year := ts.year - 1900, tm_mon := ts.month - 1,
                  tm_mday := ts.day, tm_hour := ts.hour, tm_min := ts.min,
                  tm_sec := ts.sec }
  (mktime00 t : ℚ) + ts.fract

/-- The `seconds_in_day_` constant of `odbc_result`. -/
def seconds_in_day_ : ℚ := 24 * 60 * 60

/-- Modelled from the spec: the `r_type` semantic type enum (declared in the
repository's `r_types.h`, which is not among the analyzed sources): the closed
set of logical column types distinguished by the layer. -/
inductive r_type where
  | logical_t
  | integer_t
  | double_t
  | string_t
  | datetime_t
  | date_t
  | raw_t
deriving Repr, DecidableEq

open r_type

/-- Class attribute of an R `REALSXP` column, as consulted by
`column_types(Rcpp::DataFrame)` via `inherits`. -/
inductive RealClass where
  | plain
  | dateClass
  | posixctClass
deriving Repr, DecidableEq

/-- Model of one R data-frame column: the native `TYPEOF` representation
together with the cell values the binder reads.  A `none` cell is the R `NA`
of the respective native type.  `other` stands for any `TYPEOF` outside the
switch in `column_types` (e.g. a list column), carrying only its row count. -/
inductive RColumn where
  | lgl (vals : List (Option Bool))
  | int (vals : List (Option Int))
  | real (cls : RealClass) (vals : List (Option ℚ))
  | str (vals : List (Option String))
  | raw (vals : List (List Nat))
  | other (n : Nat)
deriving Repr, DecidableEq

/-- Row count of one column. -/
def colLength : RColumn → Nat
  | .lgl v => v.length
  | .int v => v.length
  | .real _ v => v.length
  | .str v => v.length
  | .raw v => v.length
  | .other n => n

/-- Model of `df.nrows()`: the row count of the data frame, read from its first
column (all columns of a well-formed data frame have this length). -/
def df_nrows (df : List RColumn) : Nat := ((df.head?).map colLength).getD 0

/-- The semantic type of one column, following the `TYPEOF` switch of
`column_types(Rcpp::DataFrame)`: `REALSXP` columns are disambiguated by the
`Date` / `POSIXct` class attribute (in that order), and an unrecognized
`TYPEOF` raises `Rcpp::stop("Unsupported column type ...")`, modelled as
`Except.error`. -/
def column_type1 : RColumn → Except String r_type
  | .lgl _ => .ok logical_t
  | .int _ => .ok integer_t
  | .real cls _ =>
    match cls with
    | .dateClass => .ok date_t
    | .posixctClass => .ok datetime_t
    | .plain => .ok double_t
  | .str _ => .ok string_t
  | .raw _ => .ok raw_t
  | .other _ => .error "Unsupported column type"

/-- Model of `odbc_result::column_types(Rcpp::DataFrame)`: infer the semantic type of
every column, stopping at the first unsupported one. -/
def column_types : List RColumn → Except String (List r_type)
  | [] => .ok []
  | c :: rest =>
    match column_type1 c with
    | .error e => .error e
    | .ok t =>
      match column_types rest with
      | .error e => .error e
      | .ok ts => .ok (t :: ts)

/-- The contiguous view `&vector[start], size` of a column buffer. -/
def sliceBuf (xs : List α) (start size : Nat) : List α := (xs.drop start).take size

/-- The buffer-and-mask shape handed to `nanodbc::statement::bind` /
`bind_strings` for one column of one batch: an integer column is bound with
the `NA_INTEGER` sentinel and no mask, every other bound type carries an
explicit boolean null mask parallel to its value buffer. -/
inductive Binding where
  | sentinelInt (vals : List (Option Int))
  | maskedDouble (vals : List (Option ℚ)) (nulls : List Bool)
  | maskedString (vals : List String) (nulls : List Bool)
  | maskedTimestamp (vals : List Timestamp) (nulls : List Bool)
deriving Repr, DecidableEq

/-- The null mask of a binding, when it has one. -/
def bindingNulls : Binding → Option (List Bool)
  | .sentinelInt _ => none
  | .maskedDouble _ m => some m
  | .maskedString _ m => some m
  | .maskedTimestamp _ m => some m

/-- The length of the value buffer of a binding. -/
def bindingValsLen : Binding → Nat
  | .sentinelInt v => v.length
  | .maskedDouble v _ => v.length
  | .maskedString v _ => v.length
  | .maskedTimestamp v _ => v.length

/-- Model of `odbc_result::bind_integer`: bind the column slice directly, passing
`NA_INTEGER` as the sentinel null signal; no mask is built. -/
def bind_integer (vals : List (Option Int)) (start size : Nat) : Binding :=
  .sentinelInt (sliceBuf vals start size)

/-- Model of `odbc_result::bind_double`: build a boolean null mask of length `size`
(initialized `false`, set `true` where `ISNA` holds) and bind the value slice
together with the mask.  A sentinel cannot be used because `NaN != NaN`. -/
def bind_double (vals : List (Option ℚ)) (start size : Nat) : Binding :=
  .maskedDouble (sliceBuf vals start size) ((sliceBuf vals start size).map Option.isNone)

/-- Model of `odbc_result::bind_string`: for every element of the batch record the
`NA_STRING` test in the mask and push the UTF-8 translation of the element
(`Rf_translateCharUTF8` renders `NA_STRING` as the text `NA`, which is pushed
but flagged null). -/
def bind_string (vals : List (Option String)) (start size : Nat) : Binding :=
  .maskedString ((sliceBuf vals start size).map (fun v => v.getD "NA"))
    ((sliceBuf vals start size).map Option.isNone)

/-- Model of `odbc_result::bind_datetime`: for every element, a default-constructed
timestamp is pushed and the mask set when the value is `NA`; otherwise the
value runs through the codec `as_timestamp`. -/
def bind_datetime (vals : List (Option ℚ)) (start size : Nat) : Binding :=
  .maskedTimestamp
    ((sliceBuf vals start size).map (fun v =>
      match v with
      | none => default
      | some x => as_timestamp x))
    ((sliceBuf vals start size).map Option.isNone)

/-- Multiplication by `seconds_in_day_` on an R double; `NA` (a `NaN`
payload) propagates through the product. -/
def scaleDay (v : Option ℚ) : Option ℚ :=
  match v with
  | none => none
  | some x => some (x * seconds_in_day_)

/-- Model of `odbc_result::bind_date`: like `bind_datetime`, except the value is
multiplied by `seconds_in_day_` before the `ISNA` test and the codec. -/
def bind_date (vals : List (Option ℚ)) (start size : Nat) : Binding :=
  .maskedTimestamp
    (((sliceBuf vals start size).map scaleDay).map (fun v =>
      match v with
      | none => default
      | some x => as_timestamp x))
    (((sliceBuf vals start size).map scaleDay).map Option.isNone)

/-- The fixed outbound batch size of `insert_dataframe`. -/
def batch_size : Nat := 1024

/-- Dispatch of the per-column `switch (types[col])` inside the batch loop of
`insert_dataframe`.  The `default:` branch is
`Rcpp::stop("Not yet implemented!")`; it is reached for `logical_t` and
`raw_t` columns (and vacuously for a type/column mismatch, which
`column_types` never produces). -/
def bind_col (t : r_type) (col : RColumn) (start size : Nat) : Except String Binding :=
  match t, col with
  | integer_t, .int v => .ok (bind_integer v start size)
  | double_t, .real _ v => .ok (bind_double v start size)
  | string_t, .str v => .ok (bind_string v start size)
  | datetime_t, .real _ v => .ok (bind_datetime v start size)
  | date_t, .real _ v => .ok (bind_date v start size)
  | _, _ => .error "Not yet implemented!"

/-- The inner `for (short col = 0; col < ncols; ++col)` loop of one batch:
bind every column of the slice, stopping at the first fatal dispatch. -/
def bind_cols : List (r_type × RColumn) → Nat → Nat → Except String (List Binding)
  | [], _, _ => .ok []
  | p :: rest, start, size =>
    match bind_col p.1 p.2 start size with
    | .error e => .error e
    | .ok b =>
      match bind_cols rest start size with
      | .error e => .error e
      | .ok bs => .ok (b :: bs)

/-- One executed batch: its row window and the bound column buffers. -/
structure Batch where
  start : Nat
  size : Nat
  bindings : List Binding
deriving Repr, DecidableEq

/-- The `while (start < nrows)` loop of `insert_dataframe`: slice off up to
`batch_size` rows, bind all columns, execute, and advance by `batch_size`. -/
def run_batches (df : List RColumn) (types : List r_type) (nrows start : Nat) :
    Except String (List Batch) :=
  if _h : start < nrows then
    let e := min (start + batch_size) nrows
    let size := e - start
    (bind_cols (types.zip df) start size).bind fun bs =>
      (run_batches df types nrows (start + batch_size)).bind fun rest =>
        .ok ({ start := start, size := size, bindings := bs } :: rest)
  else .ok []
termination_by nrows - start
decreasing_by simp only [batch_size]; omega

/-- The outcome of a successful `insert_dataframe` call: the executed batches
and the committed transaction. -/
structure InsertResult where
  batches : List Batch
  committed : Bool
deriving Repr, DecidableEq

/-- Model of `odbc_result::insert_dataframe`: infer the semantic column types
(fatal on an unsupported `TYPEOF`), run the batched bind/execute loop inside
one transaction (fatal on an unsupported semantic type), and commit only
after every batch succeeded.  A fatal stop unwinds as `Except.error`, leaving
the transaction uncommitted. -/
def insert_dataframe (df : List RColumn) : Except String InsertResult :=
  match column_types df with
  | .error e => .error e
  | .ok types =>
    match run_batches df types (df_nrows df) 0 with
    | .error e => .error e
    | .ok bs => .ok { batches := bs, committed := true }

/-- The pure batch partition computed by the `while` loop: the pairs
`(start, size)` of the successive batches. -/
def mkBatches (nrows start : Nat) : List (Nat × Nat) :=
  if _h : start < nrows then
    (start, min (start + batch_size) nrows - start) :: mkBatches nrows (start + batch_size)
  else []
termination_by nrows - start
decreasing_by simp only [batch_size]; omega

/-- One cursor cell as the materializer reads it.  Typed extraction with a
null fallback (`get<int>(col, NA_INTEGER)` / `get<double>(col, NA_REAL)`) is
an `Option`; a timestamp cell is read as an `is_null` test plus extraction;
a string cell records the cursor's `is_null` answer before extraction and
after extraction (drivers may only report null correctly after `SQLGetData`),
together with the extracted text. -/
inductive SqlCell where
  | intCell (v : Option Int)
  | dblCell (v : Option ℚ)
  | tsCell (v : Option Timestamp)
  | strCell (nullPre : Bool) (s : String) (nullPost : Bool)
  | otherCell
deriving Repr, DecidableEq

/-- One materialized output cell.  `unset` is a cell the row loop never
wrote (a column whose semantic type has no inbound case — the `default:`
warning branch leaves the allocated cell as is). -/
inductive RCell where
  | rint (v : Option Int)
  | rdbl (v : Option ℚ)
  | rstr (v : Option String)
  | unset
deriving Repr, DecidableEq

/-- The per-column `switch (types[col])` of the row loop in
`result_to_dataframe`: integers use the sentinel-fallback getter; Date and
DateTime cells run the codec `as_double` (a Date additionally divides by
86400); a string cell is re-tested for null after extraction and only then
converted; any other semantic type warns and leaves the cell unwritten. -/
def writeCell : r_type → SqlCell → RCell
  | integer_t, .intCell v => .rint v
  | double_t, .dblCell v => .rdbl v
  | date_t, .tsCell v =>
    .rdbl (match v with
           | none => none
           | some ts => some (as_double ts / (24 * 60 * 60)))
  | datetime_t, .tsCell v =>
    .rdbl (match v with
           | none => none
           | some ts => some (as_double ts))
  | string_t, .strCell nullPre s nullPost =>
    .rstr (if nullPre then none else if nullPost then none else some s)
  | _, _ => .unset

/-- Materialize one cursor row against the inferred column types. -/
def convRow (types : List r_type) (row : List SqlCell) : List RCell :=
  (types.zip row).map fun p => writeCell p.1 p.2

/-- The growable output table during a fetch: current capacity, the column
storage (one entry per allocated row, `none` when not yet written), and the
next row index. -/
structure FetchState where
  cap : Nat
  buf : List (Option (List RCell))
  row : Nat
deriving Repr, DecidableEq

/-- Model of `odbc_result::create_dataframe`: allocate `n` rows (uninitialized). -/
def create_dataframe (n : Nat) : List (Option (List RCell)) := List.replicate n none

/-- Model of `odbc_result::resize_dataframe` (`Rf_lengthgets`): keep the first
`min n length` rows, pad the rest with fresh unwritten rows. -/
def resize_dataframe (buf : List (Option (List RCell))) (n : Nat) :
    List (Option (List RCell)) :=
  buf.take n ++ List.replicate (n - buf.length) none

/-- The `for (auto &vals : r)` row loop of `result_to_dataframe`.  Each list
element consumed models one successful cursor advance.  When the row index
reaches capacity the loop either doubles the capacity (unbounded fetch,
`n_max < 0`) and goes on, or stops — after the current row has already been
consumed from the forward-only cursor.  Returns the final state, the rows
left unconsumed, and the number of rows consumed. -/
def fetch_rows (n_max : Int) (types : List r_type) :
    List (List SqlCell) → FetchState → FetchState × List (List SqlCell) × Nat
  | [], st => (st, [], 0)
  | r :: rest, st =>
    if st.row ≥ st.cap then
      if n_max < 0 then
        let st1 : FetchState :=
          { cap := st.cap * 2, buf := resize_dataframe st.buf (st.cap * 2), row := st.row }
        let st2 : FetchState :=
          { st1 with buf := st1.buf.set st1.row (some (convRow types r)), row := st1.row + 1 }
        let res := fetch_rows n_max types rest st2
        (res.1, res.2.1, res.2.2 + 1)
      else (st, rest, 1)
    else
      let st2 : FetchState :=
        { st with buf := st.buf.set st.row (some (convRow types r)), row := st.row + 1 }
      let res := fetch_rows n_max types rest st2
      (res.1, res.2.1, res.2.2 + 1)

/-- The outcome of `result_to_dataframe`: the returned table, what is left
of the cursor, and how many rows were consumed from it. -/
structure FetchResult where
  table : List (Option (List RCell))
  cap : Nat
  remaining : List (List SqlCell)
  consumed : Nat
deriving Repr, DecidableEq

/-- Model of `odbc_result::result_to_dataframe`: allocate the initial table with
capacity `n_max` when bounded and 100 otherwise, run the row loop, and
shrink to the written row count if it is below capacity. -/
def result_to_dataframe (types : List r_type) (rows : List (List SqlCell))
    (n_max : Int) : FetchResult :=
  let n : Nat := if n_max < 0 then 100 else n_max.toNat
  let st0 : FetchState := { cap := n, buf := create_dataframe n, row := 0 }
  let res := fetch_rows n_max types rows st0
  let st := res.1
  let out := if st.row < st.cap then resize_dataframe st.buf st.row else st.buf
  { table := out, cap := st.cap, remaining := res.2.1, consumed := res.2.2 }

/-- A result cursor: the inferred column types and the pending rows. -/
structure ResultCursor where
  types : List r_type
  rows : List (List SqlCell)
deriving Repr, DecidableEq

/-- The `odbc_result` handle: the SQL text, the memoized result `r_` and an
instrumentation counter of how many times `s_.execute()` actually ran. -/
structure QueryHandle where
  sql : String
  r_ : Option ResultCursor
  execCount : Nat
deriving Repr, DecidableEq

/-- Model of `odbc_result::execute`: run the statement only when no result exists
yet (`if (!r_) r_ = s_.execute();`).  `db` models the database's answer to
the SQL text. -/
def execute (db : String → ResultCursor) (h : QueryHandle) : QueryHandle :=
  match h.r_ with
  | some _ => h
  | none => { h with r_ := some (db h.sql), execCount := h.execCount + 1 }

/-- Materialization step of `fetch` on the handle's current cursor. -/
def materialize (h : QueryHandle) (n_max : Int) : FetchResult :=
  match h.r_ with
  | some rc => result_to_dataframe rc.types rc.rows n_max
  | none => result_to_dataframe [] [] n_max

/-- Model of `odbc_result::fetch`: execute if needed, then materialize. -/
def fetch (db : String → ResultCursor) (h : QueryHandle) (n_max : Int) :
    QueryHandle × FetchResult :=
  let h2 := execute db h
  (h2, materialize h2 n_max)

/-! ## Theorems -/

/-- Splitting a year-of-era into century/quad/year layers turns the
`365 y + y/4 - y/100` day count into an exact layered sum. -/
theorem yoe_split (c q yq : Nat) (hc : c ≤ 3) (hq : q ≤ 24) (hyq : yq ≤ 3) :
    365 * (100 * c + 4 * q + yq) + (100 * c + 4 * q + yq) / 4 - (100 * c + 4 * q + yq) / 100
      = 36524 * c + 1461 * q + 365 * yq := by
  interval_cases c <;> interval_cases yq <;> omega

/-- Bounds for the layer indices of a day-of-era. -/
theorem greg_layer_bounds (doe : Nat) (h : doe ≤ 146096) :
    Greg.centC doe ≤ 3 ∧ Greg.quadQ doe ≤ 24 ∧ Greg.yearQ doe ≤ 3 := by
  simp only [Greg.centC, Greg.quadQ, Greg.dc, Greg.dq, Greg.yearQ]
  omega

/-- Core correctness of the day-of-era decomposition: the year-of-era is in
range, the day-of-year is in range, and the first day of the year-of-era plus
the day-of-year reconstitutes the day-of-era. -/
theorem greg_core (doe : Nat) (h : doe ≤ 146096) :
    Greg.yoe doe ≤ 399 ∧ Greg.doy doe ≤ 365 ∧
    365 * Greg.yoe doe + Greg.yoe doe / 4 - Greg.yoe doe / 100 + Greg.doy doe = doe := by
  obtain ⟨hc, hq, hyq⟩ := greg_layer_bounds doe h
  have hsplit := yoe_split (Greg.centC doe) (Greg.quadQ doe) (Greg.yearQ doe) hc hq hyq
  simp only [Greg.yoe] at *
  simp only [Greg.doy, Greg.dq, Greg.dc, Greg.quadQ, Greg.centC, Greg.yearQ] at *
  omega

/-- Month and day-of-month identities inside one (March-based) year. -/
theorem greg_month (doe : Nat) (h : doe ≤ 146096) :
    Greg.mp doe ≤ 11 ∧ (153 * Greg.mp doe + 2) / 5 ≤ Greg.doy doe ∧
    1 ≤ Greg.dayOfMonth doe ∧
    (153 * Greg.mp doe + 2) / 5 + Greg.dayOfMonth doe - 1 = Greg.doy doe := by
  have h2 : Greg.doy doe ≤ 365 := (greg_core doe h).2.1
  simp only [Greg.mp, Greg.dayOfMonth] at *
  omega

/-- Civil month is at least 1 and at most 12. -/
theorem greg_month_range (doe : Nat) (h : doe ≤ 146096) :
    1 ≤ Greg.monthM doe ∧ Greg.monthM doe ≤ 12 := by
  have h1 := (greg_month doe h).1
  simp only [Greg.monthM]
  split_ifs <;> omega

/-- The March-based day-of-year is recovered from the civil month and the
day-of-month. -/
theorem greg_month_roundtrip (doe : Nat) (h : doe ≤ 146096) :
    (153 * (if 2 < Greg.monthM doe then Greg.monthM doe - 3 else Greg.monthM doe + 9) + 2) / 5
      + Greg.dayOfMonth doe - 1 = Greg.doy doe := by
  obtain ⟨hmp, hmple, hd1, hdrec⟩ := greg_month doe h
  simp only [Greg.monthM]
  rcases Nat.lt_or_ge (Greg.mp doe) 10 with hlt | hge
  · rw [if_pos hlt, if_pos (by omega : 2 < Greg.mp doe + 3), Nat.add_sub_cancel]
    omega
  · rw [if_neg (by omega : ¬ Greg.mp doe < 10),
      if_neg (by omega : ¬ 2 < Greg.mp doe - 9),
      (by omega : Greg.mp doe - 9 + 9 = Greg.mp doe)]
    omega

/-- Applying `daysFromCivil` to an era-and-component decomposition
reconstructs the day count, for components in range. -/
theorem daysFromCivil_reconstruct (era : Int) (Y M D doy0 doe0 : Nat)
    (hY : Y ≤ 399) (hM1 : 1 ≤ M)
    (hmrt : (153 * (if 2 < M then M - 3 else M + 9) + 2) / 5 + D - 1 = doy0)
    (hcore : 365 * Y + Y / 4 - Y / 100 + doy0 = doe0) :
    daysFromCivil (era * 400 + Y + (if M ≤ 2 then 1 else 0)) M D
      = era * 146097 + (doe0 : Int) - 719468 := by
  have hYmod : ((era * 400 + (Y : Int)) % 400) = (Y : Int) := by
    rw [add_comm, Int.add_mul_emod_self]
    exact Int.emod_eq_of_lt (by omega) (by omega)
  have hYdiv : ((era * 400 + (Y : Int)) / 400) = era := by
    rw [add_comm, Int.add_mul_ediv_right _ _ (by norm_num : (400:Int) ≠ 0)]
    rw [Int.ediv_eq_zero_of_lt (by omega) (by omega)]
    ring
  simp only [daysFromCivil]
  rcases le_or_lt M 2 with hm2 | hm2
  · rw [if_neg (by omega : ¬ 2 < M)] at hmrt
    rw [if_pos hm2, if_neg (by omega : ¬ 2 < M)]
    rw [(by ring : era * 400 + (Y : Int) + 1 - 1 = era * 400 + (Y : Int)), hYmod, hYdiv]
    rw [Int.toNat_natCast]
    omega
  · rw [if_pos hm2] at hmrt
    rw [if_neg (by omega : ¬ M ≤ 2), if_pos hm2]
    rw [(by ring : era * 400 + (Y : Int) + 0 - 0 = era * 400 + (Y : Int)), hYmod, hYdiv]
    rw [Int.toNat_natCast]
    omega

/-- The civil decomposition of a day count is inverted exactly by
`daysFromCivil`, for every day count. -/
theorem daysFromCivil_civilFromDays (z : Int) :
    daysFromCivil (civilFromDays z).1 (civilFromDays z).2.1 (civilFromDays z).2.2 = z := by
  have hmodlt : (z + 719468) % 146097 < 146097 :=
    Int.emod_lt_of_pos _ (by norm_num)
  have hmodge : 0 ≤ (z + 719468) % 146097 :=
    Int.emod_nonneg _ (by norm_num)
  have hdoe : ((z + 719468) % 146097).toNat ≤ 146096 := by omega
  obtain ⟨hyoe, hdoy, hcore⟩ := greg_core _ hdoe
  have hmrt := greg_month_roundtrip _ hdoe
  have hm1 := (greg_month_range _ hdoe).1
  have hrec := daysFromCivil_reconstruct ((z + 719468) / 146097)
    (Greg.yoe ((z + 719468) % 146097).toNat)
    (Greg.monthM ((z + 719468) % 146097).toNat)
    (Greg.dayOfMonth ((z + 719468) % 146097).toNat)
    (Greg.doy ((z + 719468) % 146097).toNat)
    ((z + 719468) % 146097).toNat
    hyoe hm1 hmrt hcore
  have hdiv : 146097 * ((z + 719468) / 146097) + (z + 719468) % 146097 = z + 719468 :=
    Int.ediv_add_emod _ _
  simp only [civilFromDays]
  rw [hrec]
  omega

/-- The conversion `mktime00` inverts `localtime` on every epoch second count. -/
theorem mktime00_localtime (t : Int) : mktime00 (localtime t) = t := by
  have hdays := daysFromCivil_civilFromDays (t / 86400)
  have hmodlt : t % 86400 < 86400 := Int.emod_lt_of_pos _ (by norm_num)
  have hmodge : 0 ≤ t % 86400 := Int.emod_nonneg _ (by norm_num)
  have hdiv : 86400 * (t / 86400) + t % 86400 = t := Int.ediv_add_emod _ _
  have hdoe : ((t / 86400 + 719468) % 146097).toNat ≤ 146096 := by
    have h1 : (t / 86400 + 719468) % 146097 < 146097 :=
      Int.emod_lt_of_pos _ (by norm_num)
    have h2 : 0 ≤ (t / 86400 + 719468) % 146097 :=
      Int.emod_nonneg _ (by norm_num)
    omega
  have hm1 := (greg_month_range _ hdoe).1
  simp only [mktime00, localtime, civilFromDays] at hdays ⊢
  rw [(by omega : Greg.monthM ((t / 86400 + 719468) % 146097).toNat - 1 + 1
        = Greg.monthM ((t / 86400 + 719468) % 146097).toNat)]
  rw [(by ring : (t / 86400 + 719468) / 146097 * 400
          + (Greg.yoe ((t / 86400 + 719468) % 146097).toNat : Int)
          + (if Greg.monthM ((t / 86400 + 719468) % 146097).toNat ≤ 2 then 1 else 0)
          - 1900 + 1900
        = (t / 86400 + 719468) / 146097 * 400
          + (Greg.yoe ((t / 86400 + 719468) % 146097).toNat : Int)
          + (if Greg.monthM ((t / 86400 + 719468) % 146097).toNat ≤ 2 then 1 else 0))]
  rw [hdays]
  omega

/-- Rebuilding a broken-down time from shifted fields (as `as_double` does
from a timestamp produced by `as_timestamp`) leaves `mktime00` unchanged. -/
theorem mktime00_rebuild (tm : Tm) :
    mktime00 { tm_year := tm.tm_year + 1900 - 1900, tm_mon := tm.tm_mon + 1 - 1,
               tm_mday := tm.tm_mday, tm_hour := tm.tm_hour, tm_min := tm.tm_min,
               tm_sec := tm.tm_sec } = mktime00 tm := by
  simp only [mktime00, Nat.add_sub_cancel, add_sub_cancel_right]

/-- The two directions of the temporal codec compose to the identity. -/
theorem as_double_as_timestamp (d : ℚ) : as_double (as_timestamp d) = d := by
  simp only [as_double, as_timestamp]
  rw [mktime00_rebuild, mktime00_localtime]
  ring

/-- Claim C2: for every double in the model, composing the outbound codec
`as_timestamp` with the inbound codec `as_double` returns the original value,
both under the DateTime interpretation (the value is an epoch second count)
and under the Date interpretation (the value is a day count, multiplied by
`seconds_in_day_` before decomposition and divided by 86400 after
recomposition). -/
theorem claimC2_temporal_roundtrip :
    (∀ d : ℚ, as_double (as_timestamp d) = d) ∧
    (∀ d : ℚ, as_double (as_timestamp (d * seconds_in_day_)) / (24 * 60 * 60) = d) := by
  refine ⟨as_double_as_timestamp, fun d => ?_⟩
  rw [as_double_as_timestamp, seconds_in_day_]
  norm_num

/-- Reduction of `Except.bind` on a success: reduces to the continuation. -/
theorem except_ok_bind (a : α) (f : α → Except ε β) : (Except.ok a : Except ε α).bind f = f a := rfl

/-- Reduction of `Except.bind` on a failure: propagates the failure. -/
theorem except_error_bind (e : ε) (f : α → Except ε β) :
    (Except.error e : Except ε α).bind f = .error e := rfl

/-- The inference `column_types` returns one semantic type per column, and each returned
type is the one inferred for the column at the same position. -/
theorem column_types_zip (df : List RColumn) (types : List r_type)
    (h : column_types df = .ok types) :
    types.length = df.length ∧ ∀ p ∈ types.zip df, column_type1 p.2 = .ok p.1 := by
  induction df generalizing types with
  | nil =>
    simp only [column_types] at h
    cases h
    simp
  | cons c rest ih =>
    simp only [column_types] at h
    cases hc : column_type1 c with
    | error e => rw [hc] at h; cases h
    | ok t =>
      rw [hc] at h
      cases hr : column_types rest with
      | error e => rw [hr] at h; cases h
      | ok ts =>
        rw [hr] at h
        cases h
        obtain ⟨hlen, hall⟩ := ih ts hr
        refine ⟨by simp [hlen], ?_⟩
        intro p hp
        rcases List.mem_cons.mp hp with hp0 | hp1
        · subst hp0; exact hc
        · exact hall p hp1

/-- A column whose inferred semantic type is neither `logical_t` nor `raw_t`
binds successfully in every batch window. -/
theorem bind_col_ok_of_type (t : r_type) (c : RColumn) (start size : Nat)
    (hc : column_type1 c = .ok t) (h1 : t ≠ logical_t) (h2 : t ≠ raw_t) :
    ∃ b, bind_col t c start size = .ok b := by
  cases c with
  | lgl v => simp only [column_type1] at hc; cases hc; exact absurd rfl h1
  | int v => simp only [column_type1] at hc; cases hc; exact ⟨_, rfl⟩
  | real cls v =>
    cases cls <;> simp only [column_type1] at hc <;> cases hc <;> exact ⟨_, rfl⟩
  | str v => simp only [column_type1] at hc; cases hc; exact ⟨_, rfl⟩
  | raw v => simp only [column_type1] at hc; cases hc; exact absurd rfl h2
  | other n => simp only [column_type1] at hc; cases hc

/-- If every column of the list binds, the column loop binds them all. -/
theorem bind_cols_ok (l : List (r_type × RColumn)) (start size : Nat)
    (h : ∀ p ∈ l, ∃ b, bind_col p.1 p.2 start size = .ok b) :
    ∃ bs, bind_cols l start size = .ok bs := by
  induction l with
  | nil => exact ⟨[], rfl⟩
  | cons p rest ih =>
    obtain ⟨b, hb⟩ := h p (List.mem_cons_self p rest)
    obtain ⟨bs, hbs⟩ := ih fun q hq => h q (List.mem_cons_of_mem p hq)
    exact ⟨b :: bs, by simp [bind_cols, hb, hbs]⟩

/-- The only fatal message of the per-column dispatch. -/
theorem bind_col_error_msg (t : r_type) (c : RColumn) (start size : Nat) (e : String)
    (h : bind_col t c start size = .error e) : e = "Not yet implemented!" := by
  cases t <;> cases c <;> simp [bind_col] at h <;> exact h.symm

/-- Types `logical_t` and `raw_t` hit the `default:` stop of the dispatch. -/
theorem bind_col_error_of_bad (t : r_type) (c : RColumn) (start size : Nat)
    (h : t = logical_t ∨ t = raw_t) :
    bind_col t c start size = .error "Not yet implemented!" := by
  rcases h with rfl | rfl <;> cases c <;> rfl

/-- One unbindable column makes the whole column loop stop fatally. -/
theorem bind_cols_error (l : List (r_type × RColumn)) (start size : Nat)
    (p : r_type × RColumn) (hp : p ∈ l)
    (hbad : bind_col p.1 p.2 start size = .error "Not yet implemented!") :
    bind_cols l start size = .error "Not yet implemented!" := by
  induction l with
  | nil => cases hp
  | cons q rest ih =>
    rcases List.mem_cons.mp hp with hq | hq
    · subst hq; simp [bind_cols, hbad]
    · cases hqb : bind_col q.1 q.2 start size with
      | error e =>
        have := bind_col_error_msg q.1 q.2 start size e hqb
        subst this
        simp [bind_cols, hqb]
      | ok b => simp [bind_cols, hqb, ih hq]

/-- One unfolding step of `mkBatches` while rows remain. -/
theorem mkBatches_expand (n start : Nat) (hs : start < n) :
    mkBatches n start
      = (start, min (start + batch_size) n - start) :: mkBatches n (start + batch_size) := by
  rw [mkBatches.eq_def, dif_pos hs]

/-- The partition `mkBatches` is empty once the window start passes the row count. -/
theorem mkBatches_nil (n start : Nat) (hs : ¬ start < n) : mkBatches n start = [] := by
  rw [mkBatches.eq_def, dif_neg hs]

/-- The batch partition: one batch per started `batch_size` window, the
`i`-th batch starting at `batch_size * i` past the partition start and
holding the remaining rows capped at `batch_size`. -/
theorem mkBatches_spec (n start : Nat) :
    (mkBatches n start).length = (n - start + (batch_size - 1)) / batch_size ∧
    ∀ i, i < (mkBatches n start).length →
      (mkBatches n start)[i]?
        = some (start + batch_size * i, min batch_size (n - (start + batch_size * i))) := by
  by_cases hs : start < n
  · obtain ⟨ihlen, ihget⟩ := mkBatches_spec n (start + batch_size)
    rw [mkBatches_expand n start hs]
    simp only [batch_size] at ihlen ihget ⊢
    constructor
    · simp only [List.length_cons, ihlen]
      omega
    · intro i hi
      match i with
      | 0 =>
        simp only [List.getElem?_cons_zero]
        refine congrArg some ?_
        simp only [Prod.mk.injEq]
        constructor <;> omega
      | j + 1 =>
        simp only [List.getElem?_cons_succ]
        rw [ihget j (by simp only [List.length_cons] at hi; omega)]
        refine congrArg some ?_
        simp only [Prod.mk.injEq]
        constructor <;> omega
  · rw [mkBatches_nil n start hs]
    refine ⟨?_, fun i hi => absurd hi (by simp)⟩
    simp only [List.length_nil, batch_size]
    omega
termination_by n - start
decreasing_by simp only [batch_size]; omega

/-- When every column binds, the batch loop succeeds and executes exactly
the batch partition. -/
theorem run_batches_spec (df : List RColumn) (types : List r_type) (n : Nat)
    (hok : ∀ start size, ∃ bs, bind_cols (types.zip df) start size = .ok bs)
    (start : Nat) :
    ∃ l, run_batches df types n start = .ok l ∧
      l.map (fun b => (b.start, b.size)) = mkBatches n start := by
  by_cases hs : start < n
  · obtain ⟨bs, hbs⟩ := hok start (min (start + batch_size) n - start)
    obtain ⟨l, hl, hmap⟩ := run_batches_spec df types n hok (start + batch_size)
    refine ⟨{ start := start, size := min (start + batch_size) n - start,
              bindings := bs } :: l, ?_, ?_⟩
    · rw [run_batches.eq_def, dif_pos hs]
      simp only [hbs, hl, except_ok_bind]
    · rw [mkBatches_expand n start hs]
      simp [hmap]
  · refine ⟨[], ?_, ?_⟩
    · rw [run_batches.eq_def, dif_neg hs]
    · rw [mkBatches_nil n start hs]
      rfl
termination_by n - start
decreasing_by simp only [batch_size]; omega

/-- A fatal column dispatch in the first batch aborts the batch loop. -/
theorem run_batches_error (df : List RColumn) (types : List r_type) (n : Nat)
    (hn : 0 < n)
    (herr : bind_cols (types.zip df) 0 (min (0 + batch_size) n - 0)
      = .error "Not yet implemented!") :
    run_batches df types n 0 = .error "Not yet implemented!" := by
  rw [run_batches.eq_def, dif_pos hn]
  simp only [herr, except_error_bind]

/-- Claim C1, counterexample: a zero-row table with a `logical` column is
accepted — the batch loop body never runs, so the unsupported column is never
dispatched and the empty transaction commits, contradicting the claimed abort
"regardless of the table's row count". -/
theorem claimC1_counterexample :
    insert_dataframe [RColumn.lgl []] = .ok { batches := [], committed := true } := by
  have h0 : run_batches [RColumn.lgl []] [logical_t] 0 0 = .ok [] := by
    rw [run_batches.eq_def, dif_neg (by omega : ¬ (0:Nat) < 0)]
  simp [insert_dataframe, column_types, column_type1, df_nrows, colLength, h0]

/-- Claim C1 (amended): for every table holding at least one row and
containing a column whose semantic type has no outbound binding (`logical_t`
or `raw_t`), `insert_dataframe` aborts with the fatal
`Rcpp::stop("Not yet implemented!")` and the transaction is never committed
(the call returns no committed result); a zero-row such table instead commits
an empty transaction. -/
theorem claimC1_unsupported_abort (df : List RColumn) (types : List r_type)
    (hty : column_types df = .ok types)
    (hbad : logical_t ∈ types ∨ raw_t ∈ types)
    (hrows : 0 < df_nrows df) :
    insert_dataframe df = .error "Not yet implemented!" := by
  obtain ⟨hlen, hzip⟩ := column_types_zip df types hty
  have hex : ∃ t, (t = logical_t ∨ t = raw_t) ∧ t ∈ types := by
    rcases hbad with hb | hb
    · exact ⟨logical_t, Or.inl rfl, hb⟩
    · exact ⟨raw_t, Or.inr rfl, hb⟩
  obtain ⟨t, htbad, htmem⟩ := hex
  obtain ⟨i, hi, hit⟩ := List.getElem_of_mem htmem
  have hizip : i < (types.zip df).length := by
    rw [List.length_zip]
    omega
  have hpmem : (types.zip df)[i] ∈ types.zip df := List.getElem_mem hizip
  have hp1 : ((types.zip df)[i]).1 = t := by
    rw [List.getElem_zip]
    exact hit
  have herr := bind_cols_error (types.zip df) 0
    (min (0 + batch_size) (df_nrows df) - 0) ((types.zip df)[i]) hpmem
    (by rw [hp1]; exact bind_col_error_of_bad t ((types.zip df)[i]).2 _ _ htbad)
  have hrun := run_batches_error df types (df_nrows df) hrows herr
  simp [insert_dataframe, hty, hrun]

/-- Witness for the amended claim C1 at a one-row logical table. -/
theorem claimC1_unsupported_abort_witness :
    column_types [RColumn.lgl [some true]] = .ok [logical_t] ∧
    (logical_t ∈ [logical_t] ∨ raw_t ∈ [logical_t]) ∧
    0 < df_nrows [RColumn.lgl [some true]] ∧
    insert_dataframe [RColumn.lgl [some true]] = .error "Not yet implemented!" :=
  ⟨rfl, Or.inl (by decide), by decide,
    claimC1_unsupported_abort [RColumn.lgl [some true]] [logical_t] rfl
      (Or.inl (by decide)) (by decide)⟩

/-- Claim C4: for every insertable table, the rows are partitioned into
consecutive `batch_size = 1024` windows, only the final one possibly shorter:
the batch count is `⌈nrows / 1024⌉` (1024 rows → 1 batch, 1023 → 1,
1025 → 2), the `i`-th executed batch covers `[1024 i, 1024 i + size)` with
`size = min 1024 (nrows - 1024 i)`, and a zero-row table produces zero
batches while the (empty) transaction still commits. -/
theorem claimC4_batch_partition (df : List RColumn) (types : List r_type)
    (hty : column_types df = .ok types)
    (hgood : logical_t ∉ types ∧ raw_t ∉ types) :
    ∃ r, insert_dataframe df = .ok r ∧ r.committed = true ∧
      r.batches.length = (df_nrows df + 1023) / 1024 ∧
      ∀ i, i < r.batches.length →
        (r.batches[i]?).map (fun b => (b.start, b.size))
          = some (1024 * i, min 1024 (df_nrows df - 1024 * i)) := by
  obtain ⟨hlen, hzip⟩ := column_types_zip df types hty
  have hok : ∀ start size, ∃ bs, bind_cols (types.zip df) start size = .ok bs := by
    intro start size
    apply bind_cols_ok
    intro p hp
    obtain ⟨pt, pc⟩ := p
    obtain ⟨hp1, hp2⟩ := List.of_mem_zip hp
    refine bind_col_ok_of_type pt pc start size (hzip (pt, pc) hp) ?_ ?_
    · intro hcontra; rw [hcontra] at hp1; exact hgood.1 hp1
    · intro hcontra; rw [hcontra] at hp1; exact hgood.2 hp1
  obtain ⟨l, hl, hmap⟩ := run_batches_spec df types (df_nrows df) hok 0
  obtain ⟨hmklen, hmkget⟩ := mkBatches_spec (df_nrows df) 0
  have hlenl : l.length = (mkBatches (df_nrows df) 0).length := by
    rw [← hmap, List.length_map]
  refine ⟨{ batches := l, committed := true }, ?_, rfl, ?_, ?_⟩
  · simp [insert_dataframe, hty, hl]
  · rw [hlenl, hmklen]
    simp only [batch_size]
    omega
  · intro i hi
    have h1 : (l.map (fun b => (b.start, b.size)))[i]? = (mkBatches (df_nrows df) 0)[i]? := by
      rw [hmap]
    rw [List.getElem?_map] at h1
    have hi2 : i < (mkBatches (df_nrows df) 0).length := by
      rw [← hlenl]
      exact hi
    rw [h1, hmkget i hi2]
    refine congrArg some ?_
    simp only [Prod.mk.injEq, batch_size]
    constructor <;> omega

/-- Witness for claim C4 at a one-row integer column, whose partition is a
single one-row batch. -/
theorem claimC4_batch_partition_witness :
    column_types [RColumn.int [some 1]] = .ok [integer_t] ∧
    (logical_t ∉ [integer_t] ∧ raw_t ∉ [integer_t]) ∧
    (df_nrows [RColumn.int [some 1]] + 1023) / 1024 = 1 ∧
    (∃ r, insert_dataframe [RColumn.int [some 1]] = .ok r ∧
      r.committed = true ∧
      r.batches.length = (df_nrows [RColumn.int [some 1]] + 1023) / 1024 ∧
      ∀ i, i < r.batches.length →
        (r.batches[i]?).map (fun b => (b.start, b.size))
          = some (1024 * i, min 1024 (df_nrows [RColumn.int [some 1]] - 1024 * i))) :=
  ⟨rfl, by decide, by decide,
    claimC4_batch_partition [RColumn.int [some 1]] [integer_t] rfl (by decide)⟩

/-- A full window slice has exactly the window length. -/
theorem sliceBuf_length (xs : List α) (start size : Nat) (h : start + size ≤ xs.length) :
    (sliceBuf xs start size).length = size := by
  simp only [sliceBuf, List.length_take, List.length_drop]
  omega

/-- Elements of a slice are the elements of the underlying buffer. -/
theorem sliceBuf_getElem? (xs : List α) (start size i : Nat) (hi : i < size) :
    (sliceBuf xs start size)[i]? = xs[start + i]? := by
  simp only [sliceBuf]
  rw [List.getElem?_take_of_lt hi, List.getElem?_drop]

/-- Claim C3: a null value of an outbound Date or DateTime column never
reaches the temporal codec: its mask entry is set and the pushed buffer entry
is the default-constructed timestamp, untouched by `as_timestamp`. -/
theorem claimC3_null_bypasses_codec
    (vals : List (Option ℚ)) (start size i : Nat)
    (hi : i < size) (hnull : vals[start + i]? = some none) :
    (∃ ts nulls, bind_datetime vals start size = .maskedTimestamp ts nulls ∧
      nulls[i]? = some true ∧ ts[i]? = some default) ∧
    (∃ ts nulls, bind_date vals start size = .maskedTimestamp ts nulls ∧
      nulls[i]? = some true ∧ ts[i]? = some default) := by
  refine ⟨⟨_, _, rfl, ?_, ?_⟩, ⟨_, _, rfl, ?_, ?_⟩⟩ <;>
    simp only [List.getElem?_map, sliceBuf_getElem? vals start size i hi, hnull] <;> rfl

/-- Witness for claim C3 at a one-element null column. -/
theorem claimC3_witness :
    0 < 1 ∧ (([none] : List (Option ℚ))[0 + 0]? = some none) ∧
    ((∃ ts nulls, bind_datetime [none] 0 1 = .maskedTimestamp ts nulls ∧
        nulls[0]? = some true ∧ ts[0]? = some default) ∧
      (∃ ts nulls, bind_date [none] 0 1 = .maskedTimestamp ts nulls ∧
        nulls[0]? = some true ∧ ts[0]? = some default)) :=
  ⟨by decide, by decide, claimC3_null_bypasses_codec [none] 0 1 0 (by decide) (by decide)⟩

/-- Claim C8: the outbound null representation is asymmetric by type and
every bind maintains it: an integer column is bound sentinel-style with no
mask, while double, string, datetime and date columns each carry an explicit
boolean mask of length exactly the batch size and a value buffer of length
exactly the batch size (an entry is pushed even for null positions). -/
theorem claimC8_null_asymmetry
    (iv : List (Option Int)) (dv tv : List (Option ℚ)) (sv : List (Option String))
    (start size : Nat)
    (hiv : start + size ≤ iv.length) (hdv : start + size ≤ dv.length)
    (hsv : start + size ≤ sv.length) (htv : start + size ≤ tv.length) :
    (bindingNulls (bind_integer iv start size) = none ∧
      bindingValsLen (bind_integer iv start size) = size) ∧
    ((bindingNulls (bind_double dv start size)).map List.length = some size ∧
      bindingValsLen (bind_double dv start size) = size) ∧
    ((bindingNulls (bind_string sv start size)).map List.length = some size ∧
      bindingValsLen (bind_string sv start size) = size) ∧
    ((bindingNulls (bind_datetime tv start size)).map List.length = some size ∧
      bindingValsLen (bind_datetime tv start size) = size) ∧
    ((bindingNulls (bind_date tv start size)).map List.length = some size ∧
      bindingValsLen (bind_date tv start size) = size) := by
  refine ⟨⟨rfl, ?_⟩, ⟨?_, ?_⟩, ⟨?_, ?_⟩, ⟨?_, ?_⟩, ⟨?_, ?_⟩⟩ <;>
    simp only [bind_integer, bind_double, bind_string, bind_datetime, bind_date,
      bindingNulls, bindingValsLen, List.length_map, Option.map_some'] <;>
    rw [sliceBuf_length] <;> assumption

/-- Witness for claim C8 on two-row columns with one null each. -/
theorem claimC8_null_asymmetry_witness :
    (0 + 2 ≤ ([some 1, none] : List (Option Int)).length) ∧
    (0 + 2 ≤ ([some 1, none] : List (Option ℚ)).length) ∧
    (0 + 2 ≤ ([some "a", none] : List (Option String)).length) ∧
    ((bindingNulls (bind_integer [some 1, none] 0 2) = none ∧
        bindingValsLen (bind_integer [some 1, none] 0 2) = 2) ∧
      ((bindingNulls (bind_double [some 1, none] 0 2)).map List.length = some 2 ∧
        bindingValsLen (bind_double [some 1, none] 0 2) = 2) ∧
      ((bindingNulls (bind_string [some "a", none] 0 2)).map List.length = some 2 ∧
        bindingValsLen (bind_string [some "a", none] 0 2) = 2) ∧
      ((bindingNulls (bind_datetime [some 1, none] 0 2)).map List.length = some 2 ∧
        bindingValsLen (bind_datetime [some 1, none] 0 2) = 2) ∧
      ((bindingNulls (bind_date [some 1, none] 0 2)).map List.length = some 2 ∧
        bindingValsLen (bind_date [some 1, none] 0 2) = 2)) :=
  ⟨by decide, by decide, by decide,
    claimC8_null_asymmetry [some 1, none] [some 1, none] [some 1, none] [some "a", none]
      0 2 (by decide) (by decide) (by decide) (by decide)⟩

/-- Claim C9: materializing a string cell consults the cursor's null test
twice — before extraction and again after the text has been extracted; if
either test reports null the cell is written as the null string, so a cell
whose null status only becomes known after extraction is still null rather
than its extracted text. -/
theorem claimC9_string_double_null_check (nullPre nullPost : Bool) (s : String)
    (h : nullPre = true ∨ nullPost = true) :
    writeCell string_t (SqlCell.strCell nullPre s nullPost) = RCell.rstr none := by
  rcases h with rfl | rfl
  · rfl
  · cases nullPre <;> rfl

/-- Witness for claim C9: the null status appears only after extraction. -/
theorem claimC9_witness :
    (false = true ∨ true = true) ∧
    writeCell string_t (SqlCell.strCell false "late null" true) = RCell.rstr none :=
  ⟨Or.inr rfl, claimC9_string_double_null_check false true "late null" (Or.inr rfl)⟩

/-- Claim C7: `execute` is idempotent — re-executing an executed handle is a
no-op that keeps the existing cursor and does not re-run the query (the
execution counter is unchanged) — and `fetch` always runs `execute` first and
then materializes the executed handle's cursor. -/
theorem claimC7_execute_idempotent (db : String → ResultCursor) (h : QueryHandle) :
    execute db (execute db h) = execute db h ∧
    (∀ n_max : Int, fetch db h n_max = (execute db h, materialize (execute db h) n_max)) := by
  constructor
  · cases hr : h.r_ <;> simp [execute, hr]
  · intro n_max
    rfl

/-- Setting the element just past a prefix writes the head of the suffix. -/
theorem set_append_cons (w : List α) (y : α) (z : List α) (x : α) :
    (w ++ y :: z).set w.length x = w ++ x :: z := by
  induction w with
  | nil => rfl
  | cons a as ih => simp [List.set, ih]

/-- Writing the first unwritten row of a partially filled buffer extends the
written prefix. -/
theorem set_write (w : List (List RCell)) (k : Nat) (hk : 0 < k) (c : List RCell) :
    (w.map some ++ List.replicate k (none : Option (List RCell))).set w.length (some c)
      = (w ++ [c]).map some ++ List.replicate (k - 1) none := by
  obtain ⟨k2, rfl⟩ : ∃ k2, k = k2 + 1 := ⟨k - 1, by omega⟩
  rw [List.replicate_succ]
  rw [show w.length = (w.map some).length from by simp]
  rw [set_append_cons]
  simp

/-- Invariant of the unbounded row loop: started on a buffer whose written
prefix is `w`, it consumes the whole cursor, appends every row converted
(each capacity doubling preserving the written prefix), and ends with the
row count still bounded by the final capacity. -/
theorem fetch_rows_unbounded (types : List r_type) (rows : List (List SqlCell)) :
    ∀ (cap : Nat) (w : List (List RCell)), w.length ≤ cap → 0 < cap →
    ∃ st2,
      fetch_rows (-1) types rows
        ⟨cap, w.map some ++ List.replicate (cap - w.length) none, w.length⟩
        = (st2, [], rows.length) ∧
      st2.buf = (w ++ rows.map (convRow types)).map some
        ++ List.replicate (st2.cap - st2.row) none ∧
      st2.row = w.length + rows.length ∧ st2.row ≤ st2.cap ∧ 0 < st2.cap := by
  induction rows with
  | nil =>
    intro cap w hle hpos
    exact ⟨⟨cap, w.map some ++ List.replicate (cap - w.length) none, w.length⟩,
      by simp [fetch_rows], by simp, by simp, hle, hpos⟩
  | cons r rest ih =>
    intro cap w hle hpos
    simp only [fetch_rows]
    by_cases hfull : w.length ≥ cap
    · rw [if_pos hfull, if_pos (by norm_num : (-1 : Int) < 0)]
      have hcapeq : w.length = cap := le_antisymm hle hfull
      have hres : resize_dataframe (w.map some ++ List.replicate (cap - w.length) none)
            (cap * 2)
          = w.map some ++ List.replicate (cap * 2 - w.length) none := by
        simp only [resize_dataframe, (by omega : cap - w.length = 0),
          List.replicate_zero, List.append_nil]
        rw [List.take_of_length_le (by simp; omega)]
        simp
      have hb : (w.map some ++ List.replicate (cap * 2 - w.length) none).set w.length
            (some (convRow types r))
          = (w ++ [convRow types r]).map some
            ++ List.replicate (cap * 2 - (w.length + 1)) none := by
        rw [set_write w (cap * 2 - w.length) (by omega) (convRow types r), Nat.sub_sub]
      obtain ⟨st3, hrec, hbuf3, hrow3, hle3, hpos3⟩ :=
        ih (cap * 2) (w ++ [convRow types r]) (by simp; omega) (by omega)
      rw [hres, hb]
      rw [show (w ++ [convRow types r]).map some
            ++ List.replicate (cap * 2 - (w.length + 1)) none
          = (w ++ [convRow types r]).map some
            ++ List.replicate (cap * 2 - (w ++ [convRow types r]).length) none from
          by simp]
      rw [show w.length + 1 = (w ++ [convRow types r]).length from by simp]
      rw [hrec]
      refine ⟨st3, rfl, ?_, ?_, hle3, hpos3⟩
      · rw [hbuf3]
        simp
      · simp only [List.length_append, List.length_cons, List.length_singleton,
          List.length_nil] at hrow3 ⊢
        omega
    · rw [if_neg hfull]
      have hb : (w.map some ++ List.replicate (cap - w.length) none).set w.length
            (some (convRow types r))
          = (w ++ [convRow types r]).map some
            ++ List.replicate (cap - (w.length + 1)) none := by
        rw [set_write w (cap - w.length) (by omega) (convRow types r), Nat.sub_sub]
      obtain ⟨st3, hrec, hbuf3, hrow3, hle3, hpos3⟩ :=
        ih cap (w ++ [convRow types r]) (by simp; omega) hpos
      rw [hb]
      rw [show (w ++ [convRow types r]).map some
            ++ List.replicate (cap - (w.length + 1)) none
          = (w ++ [convRow types r]).map some
            ++ List.replicate (cap - (w ++ [convRow types r]).length) none from by simp]
      rw [show w.length + 1 = (w ++ [convRow types r]).length from by simp]
      rw [hrec]
      refine ⟨st3, rfl, ?_, ?_, hle3, hpos3⟩
      · rw [hbuf3]
        simp
      · simp only [List.length_append, List.length_cons, List.length_singleton,
          List.length_nil] at hrow3 ⊢
        omega

/-- Claim C5: an unbounded fetch (`maxRows = -1`) starts at capacity 100,
doubles the capacity as needed while preserving every already written row,
shrinks to the exact written row count at the end, and returns the whole
cursor — one converted output row per cursor row, in order, with no
truncation — leaving nothing unconsumed. -/
theorem claimC5_unbounded_growable_fetch (types : List r_type)
    (rows : List (List SqlCell)) :
    (result_to_dataframe types rows (-1)).table
      = rows.map (fun r => some (convRow types r)) ∧
    (result_to_dataframe types rows (-1)).table.length = rows.length ∧
    (result_to_dataframe types rows (-1)).remaining = [] ∧
    (result_to_dataframe types rows (-1)).consumed = rows.length := by
  obtain ⟨st2, heq, hbuf, hrow, hle, hpos⟩ :=
    fetch_rows_unbounded types rows 100 [] (by simp) (by norm_num)
  simp only [List.length_nil, Nat.zero_add] at hrow
  simp only [result_to_dataframe, if_pos (by norm_num : (-1 : Int) < 0), create_dataframe]
  rw [show (List.replicate 100 (none : Option (List RCell)))
      = ([].map some ++ List.replicate (100 - List.length ([] : List (List RCell))) none)
      from by simp]
  rw [show (0 : Nat) = List.length ([] : List (List RCell)) from rfl]
  rw [heq]
  simp only [List.nil_append] at hbuf
  have htab : (if st2.row < st2.cap then resize_dataframe st2.buf st2.row else st2.buf)
      = rows.map (fun r => some (convRow types r)) := by
    by_cases hlt : st2.row < st2.cap
    · rw [if_pos hlt]
      simp only [resize_dataframe, hbuf]
      rw [List.take_append_of_le_length (by simp; omega)]
      rw [List.take_of_length_le (by simp; omega)]
      simp only [List.length_append, List.length_map, List.length_replicate]
      rw [(by omega : st2.row - (rows.length + (st2.cap - st2.row)) = 0)]
      simp [List.map_map, Function.comp]
    · rw [if_neg hlt]
      rw [hbuf, (by omega : st2.cap - st2.row = 0)]
      simp [List.map_map, Function.comp]
  rw [htab]
  refine ⟨rfl, by simp, rfl, rfl⟩

/-- Invariant of the bounded row loop on a cursor longer than the remaining
capacity: it fills the table to capacity, consumes one row beyond the cap
before stopping, and leaves the rest of the cursor. -/
theorem fetch_rows_bounded (types : List r_type) (k : Nat) (rows : List (List SqlCell)) :
    ∀ (w : List (List RCell)), w.length ≤ k → k < w.length + rows.length →
    fetch_rows (k : Int) types rows
      ⟨k, w.map some ++ List.replicate (k - w.length) none, w.length⟩
      = (⟨k, (w ++ (rows.take (k - w.length)).map (convRow types)).map some, k⟩,
         rows.drop (k - w.length + 1), k - w.length + 1) := by
  induction rows with
  | nil =>
    intro w hle hmore
    exact absurd hmore (by simp; omega)
  | cons r rest ih =>
    intro w hle hmore
    simp only [List.length_cons] at hmore
    simp only [fetch_rows]
    by_cases hfull : w.length ≥ k
    · have hk : w.length = k := le_antisymm hle hfull
      rw [if_pos hfull, if_neg (by omega : ¬ (k : Int) < 0)]
      rw [(by omega : k - w.length = 0)]
      simp [hk]
    · rw [if_neg hfull]
      have hb : (w.map some ++ List.replicate (k - w.length) none).set w.length
            (some (convRow types r))
          = (w ++ [convRow types r]).map some
            ++ List.replicate (k - (w.length + 1)) none := by
        rw [set_write w (k - w.length) (by omega) (convRow types r), Nat.sub_sub]
      have hih := ih (w ++ [convRow types r]) (by simp; omega) (by simp; omega)
      simp only [List.length_append, List.length_cons, List.length_nil,
        Nat.zero_add] at hih
      rw [hb, hih]
      obtain ⟨m, hm⟩ : ∃ m, k - w.length = m + 1 := ⟨k - w.length - 1, by omega⟩
      rw [hm, (by omega : k - (w.length + 1) = m)]
      simp [List.append_assoc]

/-- Claim C6: a bounded fetch (`maxRows = k`) against a cursor with more than
`k` rows returns exactly the first `k` rows in cursor order, and the capacity
never grows past `k`. -/
theorem claimC6_bounded_fetch (types : List r_type) (rows : List (List SqlCell))
    (k : Nat) (hk : k < rows.length) :
    (result_to_dataframe types rows (k : Int)).table
      = (rows.take k).map (fun r => some (convRow types r)) ∧
    (result_to_dataframe types rows (k : Int)).table.length = k ∧
    (result_to_dataframe types rows (k : Int)).cap = k := by
  have hb := fetch_rows_bounded types k rows [] (by simp) (by simp; omega)
  simp only [List.length_nil, Nat.sub_zero, List.map_nil, List.nil_append] at hb
  simp only [result_to_dataframe, if_neg (by omega : ¬ (k : Int) < 0),
    Int.toNat_natCast, create_dataframe]
  rw [hb]
  refine ⟨?_, ?_, rfl⟩
  · rw [if_neg (by omega : ¬ k < k)]
    simp [List.map_map, Function.comp_def]
  · rw [if_neg (by omega : ¬ k < k)]
    simp only [List.length_map, List.length_take]
    omega

/-- Witness for claim C6: fetching two of three rows. -/
theorem claimC6_bounded_fetch_witness :
    2 < ([[SqlCell.intCell (some 1)], [SqlCell.intCell (some 2)],
          [SqlCell.intCell (some 3)]] : List (List SqlCell)).length ∧
    ((result_to_dataframe [integer_t]
        [[SqlCell.intCell (some 1)], [SqlCell.intCell (some 2)], [SqlCell.intCell (some 3)]]
        (2 : Nat)).table
      = (([[SqlCell.intCell (some 1)], [SqlCell.intCell (some 2)],
           [SqlCell.intCell (some 3)]] : List (List SqlCell)).take 2).map
          (fun r => some (convRow [integer_t] r)) ∧
     (result_to_dataframe [integer_t]
        [[SqlCell.intCell (some 1)], [SqlCell.intCell (some 2)], [SqlCell.intCell (some 3)]]
        (2 : Nat)).table.length = 2 ∧
     (result_to_dataframe [integer_t]
        [[SqlCell.intCell (some 1)], [SqlCell.intCell (some 2)], [SqlCell.intCell (some 3)]]
        (2 : Nat)).cap = 2) :=
  ⟨by decide,
    claimC6_bounded_fetch [integer_t]
      [[SqlCell.intCell (some 1)], [SqlCell.intCell (some 2)], [SqlCell.intCell (some 3)]]
      2 (by decide)⟩

/-- Claim C10: a bounded fetch with `maxRows = k` against a cursor holding
more than `k` rows advances the forward-only cursor `k + 1` times — the row
at zero-based position `k` is consumed before the cap check breaks the loop,
so exactly the rows past position `k` remain for a later fetch on the same
cursor. -/
theorem claimC10_bounded_overconsumption (types : List r_type)
    (rows : List (List SqlCell)) (k : Nat) (hk : k < rows.length) :
    (result_to_dataframe types rows (k : Int)).consumed = k + 1 ∧
    (result_to_dataframe types rows (k : Int)).remaining = rows.drop (k + 1) := by
  have hb := fetch_rows_bounded types k rows [] (by simp) (by simp; omega)
  simp only [List.length_nil, Nat.sub_zero, List.map_nil, List.nil_append] at hb
  simp only [result_to_dataframe, if_neg (by omega : ¬ (k : Int) < 0),
    Int.toNat_natCast, create_dataframe]
  rw [hb]
  exact ⟨rfl, rfl⟩

/-- Witness for claim C10: a two-row cursor fetched with cap 1 loses the
second row. -/
theorem claimC10_bounded_overconsumption_witness :
    1 < ([[SqlCell.strCell false "a" false], [SqlCell.strCell false "b" false]]
        : List (List SqlCell)).length ∧
    ((result_to_dataframe [string_t]
        [[SqlCell.strCell false "a" false], [SqlCell.strCell false "b" false]]
        (1 : Nat)).consumed = 1 + 1 ∧
     (result_to_dataframe [string_t]
        [[SqlCell.strCell false "a" false], [SqlCell.strCell false "b" false]]
        (1 : Nat)).remaining
       = ([[SqlCell.strCell false "a" false], [SqlCell.strCell false "b" false]]
          : List (List SqlCell)).drop (1 + 1)) :=
  ⟨by decide,
    claimC10_bounded_overconsumption [string_t]
      [[SqlCell.strCell false "a" false], [SqlCell.strCell false "b" false]]
      1 (by decide)⟩

